import Mathlib

/-!
Shallow embedding of `swift/container/sync.py` (container-sync daemon).

The repository source under scrutiny is the single file
`src/swift/container/sync.py`.  Its collaborators (`ContainerBroker`,
`client`, `direct_client`, the object `Ring`, `validate_sync_to`, the
logger and `time`) live outside `src/` and are treated, as the spec
prescribes, as external interfaces: they appear here as oracle fields of
`SyncEnv`, and the one piece of behaviour a claim leans on
(`get_items_since`) is modelled from the spec's description of the
change-log interface.

Python exceptions are modelled by `Except PyExc`; machine state the code
mutates (`self.container_*` counters, cursor writes through
`set_x_container_sync_row`, issued HTTP requests) is threaded explicitly
and recorded in a `SyncOutcome`.
-/

/-- Python dict of header name to value, as an association list with the
dict's lookup/overwrite/delete semantics (`hlookup`, `hset`, `hdel`). -/
abbrev Headers := List (String × String)

/-- The exceptions the code distinguishes: `client.ClientException` with its
`http_status`, a `NameError` from referencing an unbound local, and any
other `Exception`. -/
inductive PyExc where
  | client (http_status : Int)
  | nameError
  | other
  deriving DecidableEq, Repr, Inhabited

/-- One row of the container change log, as used by `container_sync_row`:
`row['ROWID']`, `row['name']`, `row['created_at']`, `row['deleted']`. -/
structure Row where
  rowid : Int
  name : String
  created_at : String
  deleted : Bool
  deriving DecidableEq, Repr, Inhabited

/-- The five daemon counters (`self.container_syncs` etc.). -/
structure Stats where
  container_syncs : Nat
  container_deletes : Nat
  container_puts : Nat
  container_skips : Nat
  container_failures : Nat
  deriving DecidableEq, Repr, Inhabited

/-- The fields of `broker.get_info()` that `container_sync` reads:
`account`, `container` and `x_container_sync_row`. -/
structure BrokerInfo where
  account : String
  container : String
  x_container_sync_row : Int
  deriving DecidableEq, Repr, Inhabited

/-- A remote HTTP request issued by `container_sync_row`:
`client.delete_object`, `direct_client.direct_get_object` (to one node) or
`client.put_object`. -/
inductive RemoteCall where
  | del (name : String) (headers : Headers)
  | get (node : Nat)
  | put (name : String) (headers : Headers) (contents : List String)
  deriving DecidableEq, Repr, Inhabited

/-- Dict key lookup: `headers[k]` / `k in headers`. -/
def hlookup (k : String) : Headers → Option String
  | [] => none
  | (k', v) :: t => if k' = k then some v else hlookup k t

/-- Dict key deletion: `del headers[k]`. -/
def hdel (k : String) : Headers → Headers
  | [] => []
  | (k', v) :: t => if k' = k then hdel k t else (k', v) :: hdel k t

/-- Dict key assignment: `headers[k] = v`. -/
def hset (k v : String) (h : Headers) : Headers :=
  hdel k h ++ [(k, v)]

/-- Python `s.strip(c)` for a single character: drop every leading and
trailing occurrence of `c`. -/
def pyStripChar (c : Char) (s : String) : String :=
  String.mk ((((s.toList.dropWhile (fun x => x = c)).reverse.dropWhile
    (fun x => x = c)).reverse))

/-- `value.strip(chr(34))` used on the fetched `etag` header. -/
def pyStripQuotes (s : String) : String :=
  pyStripChar '"' s

/-- `sync_to.rstrip(chr(47))`: drop trailing slashes. -/
def pyRstripSlashes (s : String) : String :=
  String.mk ((s.toList.reverse.dropWhile (fun x => x = '/')).reverse)

/-- Python `path.endswith(pat)`, computed on character lists (so that the
kernel can evaluate it on concrete paths). -/
def pyEndsWith (s pat : String) : Bool :=
  pat.toList.isSuffixOf s.toList

/-- Python `key.lower()` (ASCII lowering, as for the byte strings of the
source), computed on character lists. -/
def pyLower (s : String) : String :=
  String.mk (s.toList.map Char.toLower)

/-- Python truthiness of an optional string (`not sync_to` is true exactly
when `sync_to` is `None` or the empty string). -/
def truthy : Option String → Bool
  | none => false
  | some s => s ≠ ""

/-- The metadata scan of `container_sync` lines 202-206: walk
`broker.metadata.iteritems()` in order, assigning `sync_to` / `sync_key`
on a case-insensitive key match (a later entry overwrites an earlier
one).  Entries are `(key, (value, timestamp))`. -/
def scanMeta : List (String × String × String) → Option String → Option String →
    Option String × Option String
  | [], sync_to, sync_key => (sync_to, sync_key)
  | (k, v, _) :: t, sync_to, sync_key =>
    if pyLower k = "x-container-sync-to" then scanMeta t (some v) sync_key
    else if pyLower k = "x-container-sync-key" then scanMeta t sync_to (some v)
    else scanMeta t sync_to sync_key

/-- Lines 285-286: `if 'etag' in headers: headers['etag'] =
headers['etag'].strip(chr(34))`. -/
def etagAdj (h : Headers) : Headers :=
  match hlookup "etag" h with
  | some v => hset "etag" (pyStripQuotes v) h
  | none => h

/-- Header sanitization of `container_sync_row` lines 282-288: delete
`date` and `last-modified`, unquote `etag`, then set `X-Timestamp` from
the row's `created_at` and `X-Container-Sync-Key`. -/
def sanitizeHeaders (headers : Headers) (created_at sync_key : String) : Headers :=
  hset "X-Container-Sync-Key" sync_key
    (hset "X-Timestamp" created_at
      (etagAdj (hdel "last-modified" (hdel "date" headers))))

/-- The replica fan-out `for node in nodes: ... else: ...` of lines
264-281, after at least one node exists.  Carries `exc`, the last
`ClientException` seen, and the `direct_get_object` calls made so far.  A
non-`ClientException` from a node propagates at once; if the list is
exhausted the saved `exc` is re-raised, and with no saved `exc` the
"Unknown exception" is raised (its arguments evaluate fine here because
`node` was bound by at least one iteration). -/
def fanoutGo (get : Nat → Except PyExc (Headers × List String)) :
    List Nat → Option PyExc → List RemoteCall →
    Except PyExc ((Headers × List String) × Nat) × List RemoteCall
  | [], none, calls => (Except.error PyExc.other, calls)
  | [], some e, calls => (Except.error e, calls)
  | n :: rest, _exc, calls =>
    match get n with
    | Except.ok hb => (Except.ok (hb, n), calls ++ [RemoteCall.get n])
    | Except.error (PyExc.client s) =>
      fanoutGo get rest (some (PyExc.client s)) (calls ++ [RemoteCall.get n])
    | Except.error e => (Except.error e, calls ++ [RemoteCall.get n])

/-- The whole fan-out including the degenerate empty-node-list case: the
`for` loop never runs, `exc` is `None`, and building the "Unknown
exception" message evaluates the never-bound loop variable `node`,
raising `NameError` (lines 273-281). -/
def fanout (get : Nat → Except PyExc (Headers × List String)) (nodes : List Nat) :
    Except PyExc ((Headers × List String) × Nat) × List RemoteCall :=
  match nodes with
  | [] => (Except.error PyExc.nameError, [])
  | _ :: _ => fanoutGo get nodes none []

/-- The external world of one `ContainerSync` call: the broker for the
candidate path, the clock, and the HTTP client / ring oracles.  All of
these are collaborators outside `src/` (spec section 6); their responses
are supplied as data. -/
structure SyncEnv where
  /-- The candidate path handed to `container_sync`. -/
  path : String
  /-- Result of constructing `ContainerBroker(path)`: `error` means the
  constructor raised, leaving the local `broker` unbound. -/
  openBroker : Except PyExc Unit
  /-- Result of `broker.get_info()`. -/
  getInfo : Except PyExc BrokerInfo
  /-- `broker.is_deleted()`. -/
  isDeleted : Bool
  /-- `broker.metadata` as `(key, (value, timestamp))` entries in
  iteration order. -/
  metadata : List (String × String × String)
  /-- `validate_sync_to(sync_to, self.allowed_sync_hosts)`: `some err`
  is a validation failure message. -/
  validate : String → Option String
  /-- `self.container_time`. -/
  container_time : Int
  /-- `time.time()` at its n-th call inside `container_sync`. -/
  time : Nat → Int
  /-- The container's change log backing `broker.get_items_since`. -/
  log : List Row
  /-- `self.object_ring.get_nodes(account, container, name)` keyed by the
  object name: the partition and the node list. -/
  getNodes : String → Nat × List Nat
  /-- `random.shuffle` as performed for this object's node list. -/
  shuffle : String → List Nat → List Nat
  /-- Result of `client.delete_object` for this object. -/
  deleteResult : String → Except PyExc Unit
  /-- Result of `direct_client.direct_get_object` per node. -/
  getResult : String → Nat → Except PyExc (Headers × List String)
  /-- Result of `client.put_object` for this object with these headers. -/
  putResult : String → Headers → Except PyExc Unit

/-- `ContainerSync.container_sync_row` (lines 234-322): replicate one row;
returns the `True`/`False` success flag, the updated counters, and the
remote requests issued.  Both `except` arms of the source converge to
"count a failure, return `False`". -/
def container_sync_row (env : SyncEnv) (row : Row) (sync_key : String) (st : Stats) :
    Bool × Stats × List RemoteCall :=
  if row.deleted then
    match env.deleteResult row.name with
    | Except.ok _ =>
      (true, {st with container_deletes := st.container_deletes + 1},
       [RemoteCall.del row.name
         [("X-Timestamp", row.created_at), ("X-Container-Sync-Key", sync_key)]])
    | Except.error e =>
      if e = PyExc.client 404 then
        (true, {st with container_deletes := st.container_deletes + 1},
         [RemoteCall.del row.name
           [("X-Timestamp", row.created_at), ("X-Container-Sync-Key", sync_key)]])
      else
        (false, {st with container_failures := st.container_failures + 1},
         [RemoteCall.del row.name
           [("X-Timestamp", row.created_at), ("X-Container-Sync-Key", sync_key)]])
  else
    match fanout (env.getResult row.name) (env.shuffle row.name (env.getNodes row.name).2) with
    | (Except.error _, calls) =>
      (false, {st with container_failures := st.container_failures + 1}, calls)
    | (Except.ok (hb, _), calls) =>
      match env.putResult row.name (sanitizeHeaders hb.1 row.created_at sync_key) with
      | Except.ok _ =>
        (true, {st with container_puts := st.container_puts + 1},
         calls ++ [RemoteCall.put row.name
           (sanitizeHeaders hb.1 row.created_at sync_key) hb.2])
      | Except.error _ =>
        (false, {st with container_failures := st.container_failures + 1},
         calls ++ [RemoteCall.put row.name
           (sanitizeHeaders hb.1 row.created_at sync_key) hb.2])

/-- Modelled from the spec: `ContainerBroker.get_items_since(start, count)`
(the broker lives outside `src/`; spec section 6 describes it as
"enumerate rows since a cursor", section 4.1 step 6 as "fetch the next
change row strictly after the current cursor"): the first `count` rows
whose `ROWID` is strictly greater than `start`. -/
def get_items_since (log : List Row) (start : Int) (count : Nat) : List Row :=
  (log.filter (fun r => start < r.rowid)).take count

/-- How one `container_sync` call ended (which source line returned). -/
inductive ExitKind where
  /-- Line 195: path does not end in `.db`. -/
  | notDb
  /-- `broker.get_info()` raised; caught at line 230. -/
  | infoErr
  /-- Line 198: `broker.is_deleted()` was true, body skipped. -/
  | deletedDb
  /-- Line 209: sync metadata missing, `container_skips` bumped. -/
  | skip
  /-- Line 218: `validate_sync_to` failed, `container_failures` bumped. -/
  | invalid
  /-- Line 223: `get_items_since` returned no rows, loop `break`. -/
  | caughtUp
  /-- Line 220: the `while time.time() < stop_at` test failed. -/
  | deadline
  /-- Line 226: `container_sync_row` returned `False`. -/
  | rowFail
  /-- Modelling artifact: the loop fuel ran out (proved unreachable). -/
  | fuelOut
  deriving DecidableEq, Repr, Inhabited

/-- Everything observable from one `container_sync` call: final counters,
the cursor values passed to `broker.set_x_container_sync_row` in order,
the remote requests issued, the rows handed to `container_sync_row` with
their result, and which exit was taken. -/
structure SyncOutcome where
  stats : Stats
  cursorWrites : List Int
  calls : List RemoteCall
  attempts : List (Row × Bool)
  exit : ExitKind
  deriving DecidableEq, Repr, Inhabited

/-- The row loop of `container_sync` (lines 219-229), with explicit fuel
(the fuel is spent one unit per iteration; `container_sync` supplies more
fuel than the change log has rows, which is proved sufficient).  `k`
indexes the `time.time()` calls; the `while` test is checked before every
iteration.  Note that the `container_syncs += 1` of line 229 runs on
*any* exit of the `while` statement that is not the early `return` of
line 226 - both the `break` (rows exhausted) and the deadline exit. -/
def syncLoop (env : SyncEnv) (sync_key : String) (stop_at : Int) :
    Nat → Nat → Int → Stats → List Int → List RemoteCall → List (Row × Bool) →
    SyncOutcome
  | 0, _, _, st, ws, cs, ats => ⟨st, ws, cs, ats, ExitKind.fuelOut⟩
  | fuel + 1, k, sync_row, st, ws, cs, ats =>
    if env.time k < stop_at then
      match get_items_since env.log sync_row 1 with
      | [] =>
        ⟨{st with container_syncs := st.container_syncs + 1}, ws, cs, ats,
         ExitKind.caughtUp⟩
      | row :: _ =>
        match container_sync_row env row sync_key st with
        | (true, st', cs') =>
          syncLoop env sync_key stop_at fuel (k + 1) row.rowid st'
            (ws ++ [row.rowid]) (cs ++ cs') (ats ++ [(row, true)])
        | (false, st', cs') =>
          ⟨st', ws, cs ++ cs', ats ++ [(row, false)], ExitKind.rowFail⟩
    else
      ⟨{st with container_syncs := st.container_syncs + 1}, ws, cs, ats,
       ExitKind.deadline⟩

/-- `ContainerSync.container_sync` (lines 185-232).  A normal return is
`Except.ok`; `Except.error` means an exception escaped to the caller - the
only way that happens is the line-232 handler itself raising `NameError`
on `broker.db_file` when `ContainerBroker(path)` had raised, `broker`
being still unbound (the `container_failures += 1` of line 231 has
already run, so the error carries the bumped counters). -/
def container_sync (env : SyncEnv) (st : Stats) : Except (PyExc × Stats) SyncOutcome :=
  if pyEndsWith env.path ".db" then
    match env.openBroker with
    | Except.error _ =>
      Except.error (PyExc.nameError,
        {st with container_failures := st.container_failures + 1})
    | Except.ok _ =>
      match env.getInfo with
      | Except.error _ =>
        Except.ok ⟨{st with container_failures := st.container_failures + 1},
          [], [], [], ExitKind.infoErr⟩
      | Except.ok info =>
        if env.isDeleted then
          Except.ok ⟨st, [], [], [], ExitKind.deletedDb⟩
        else
          if !(truthy (scanMeta env.metadata none none).1) ||
             !(truthy (scanMeta env.metadata none none).2) then
            Except.ok ⟨{st with container_skips := st.container_skips + 1},
              [], [], [], ExitKind.skip⟩
          else
            match env.validate
                (pyRstripSlashes ((scanMeta env.metadata none none).1.getD "")) with
            | some _ =>
              Except.ok ⟨{st with container_failures := st.container_failures + 1},
                [], [], [], ExitKind.invalid⟩
            | none =>
              Except.ok (syncLoop env ((scanMeta env.metadata none none).2.getD "")
                (env.time 0 + env.container_time) (env.log.length + 1) 1
                info.x_container_sync_row st [] [] [])
  else
    Except.ok ⟨st, [], [], [], ExitKind.notDb⟩

/-- `_Iter2FileLikeObject` (lines 29-59): `iterator` is the not yet
consumed tail of the source iterator, `chunk` is `self._chunk`. -/
structure Iter2File where
  iterator : List String
  chunk : String
  deriving DecidableEq, Repr, Inhabited

/-- `_Iter2FileLikeObject.read` (lines 39-59), returning the string handed
back and the updated object.  For `size < 0` it returns the buffered
chunk plus the joined rest of the iterator.  For `size >= 0` it pulls the
*next* chunk from the iterator (an exhausted iterator leaves `chunk`
as the empty string via the swallowed `StopIteration`); if that fits in
`size` it is returned whole, otherwise the surplus is saved into
`self._chunk`.  Note the `size >= 0` path never consults the previously
buffered `self._chunk`. -/
def Iter2File.read (f : Iter2File) (size : Int) : String × Iter2File :=
  if size < 0 then
    (f.chunk ++ String.join f.iterator, ⟨[], ""⟩)
  else
    match f.iterator with
    | [] => ("", ⟨[], f.chunk⟩)
    | c :: rest =>
      if (c.length : Int) ≤ size then (c, ⟨rest, f.chunk⟩)
      else (c.take size.toNat, ⟨rest, c.drop size.toNat⟩)

/-- A zeroed counter set, as at daemon start. -/
def stZero : Stats := ⟨0, 0, 0, 0, 0⟩

/-- A benign concrete environment: valid path, readable broker, sync
metadata present, permissive validation, one replica node which serves
`"hello"` with a quoted etag, and all remote calls succeeding.  Concrete
scenarios below are variations of it. -/
def envBase : SyncEnv where
  path := "/srv/node/sda/containers/542/abc/hash/hash.db"
  openBroker := Except.ok ()
  getInfo := Except.ok ⟨"AUTH_a", "c", 0⟩
  isDeleted := false
  metadata :=
    [("X-Container-Sync-To", ("http://127.0.0.1/v1/AUTH_x/dest/", "1")),
     ("X-Container-Sync-Key", ("secret", "1"))]
  validate := fun _ => none
  container_time := 60
  time := fun _ => 0
  log := []
  getNodes := fun _ => (1, [0])
  shuffle := fun _ l => l
  deleteResult := fun _ => Except.ok ()
  getResult := fun _ _ =>
    Except.ok ([("etag", "\"abc\""), ("date", "D"), ("last-modified", "L")], ["hello"])
  putResult := fun _ _ => Except.ok ()

/-- Two pending object rows, everything succeeding. -/
def envC1 : SyncEnv :=
  { envBase with log := [⟨1, "o1", "t1", false⟩, ⟨2, "o2", "t2", false⟩] }

/-- Pending rows 5, 6, 7 where the PUT for row 6's object fails. -/
def envC5 : SyncEnv :=
  { envBase with
    log := [⟨5, "a5", "t5", false⟩, ⟨6, "a6", "t6", false⟩, ⟨7, "a7", "t7", false⟩],
    putResult := fun name _ =>
      if name = "a6" then Except.error (PyExc.client 503) else Except.ok () }

/-- A pending row, but `container_time` is 0 and the clock is already at
the deadline, so the `while` test fails immediately. -/
def envDead : SyncEnv :=
  { envBase with container_time := 0, time := fun _ => 5, log := [⟨1, "a", "t", false⟩] }

/-- `ContainerBroker(path)` raises. -/
def envBroken : SyncEnv := { envBase with openBroker := Except.error PyExc.other }

/-- The remote DELETE comes back 404. -/
def envDel404 : SyncEnv :=
  { envBase with deleteResult := fun _ => Except.error (PyExc.client 404) }

/-- Sync key metadata entry missing entirely. -/
def envC8 : SyncEnv :=
  { envBase with metadata := [("X-Container-Sync-To", ("http://127.0.0.1/v1/AUTH_x/dest", "1"))] }

/-- `validate_sync_to` rejects the target. -/
def envC9 : SyncEnv := { envBase with validate := fun _ => some "invalid host" }

/-- The object ring returns an empty node list. -/
def envC10 : SyncEnv := { envBase with getNodes := fun _ => (1, []) }

/-- A deletion row. -/
def rowDel : Row := ⟨2, "a.txt", "1400000001.00000", true⟩

/-- A creation row. -/
def rowPut : Row := ⟨1, "a.txt", "1400000000.00000", false⟩

/-- The outcome `container_sync` computes on `envBase`. -/
def outBase : SyncOutcome := (container_sync envBase stZero).toOption.getD default

/-- The outcome `container_sync` computes on `envC1`. -/
def outC1 : SyncOutcome := (container_sync envC1 stZero).toOption.getD default

/-- The outcome `container_sync` computes on `envC5`. -/
def outC5 : SyncOutcome := (container_sync envC5 stZero).toOption.getD default

/-- The outcome `container_sync` computes on `envDead`. -/
def outDead : SyncOutcome := (container_sync envDead stZero).toOption.getD default

theorem hlookup_append_none {k : String} {h1 : Headers} (h : hlookup k h1 = none)
    (h2 : Headers) : hlookup k (h1 ++ h2) = hlookup k h2 := by
  induction h1 with
  | nil => simp
  | cons a t ih =>
    obtain ⟨k', v⟩ := a
    by_cases hk : k' = k
    · simp [hlookup, hk] at h
    · simp only [hlookup, hk, if_false, List.cons_append] at h ⊢
      exact ih h

theorem hlookup_append_some {k v : String} {h1 : Headers} (h : hlookup k h1 = some v)
    (h2 : Headers) : hlookup k (h1 ++ h2) = some v := by
  induction h1 with
  | nil => simp [hlookup] at h
  | cons a t ih =>
    obtain ⟨k', w⟩ := a
    by_cases hk : k' = k
    · simp only [hlookup, hk, if_true] at h
      simp only [List.cons_append, hlookup, hk, if_true]
      exact h
    · simp only [hlookup, hk, if_false] at h
      simp only [List.cons_append, hlookup, hk, if_false]
      exact ih h

theorem hlookup_hdel_self (k : String) (h : Headers) : hlookup k (hdel k h) = none := by
  induction h with
  | nil => rfl
  | cons a t ih =>
    obtain ⟨k', v⟩ := a
    by_cases hk : k' = k
    · simp [hdel, hk, ih]
    · simp [hdel, hlookup, hk, ih]

theorem hlookup_hdel_ne {k k' : String} (hne : k ≠ k') (h : Headers) :
    hlookup k (hdel k' h) = hlookup k h := by
  induction h with
  | nil => rfl
  | cons a t ih =>
    obtain ⟨k2, v⟩ := a
    by_cases hk : k2 = k'
    · subst hk
      simp [hdel, hlookup, ih, Ne.symm hne]
    · simp [hdel, hlookup, hk, ih]

theorem hlookup_hset_self (k v : String) (h : Headers) :
    hlookup k (hset k v h) = some v := by
  unfold hset
  rw [hlookup_append_none (hlookup_hdel_self k h)]
  simp [hlookup]

theorem hlookup_hset_ne {k k' : String} (hne : k ≠ k') (v : String) (h : Headers) :
    hlookup k (hset k' v h) = hlookup k h := by
  unfold hset
  cases hl : hlookup k (hdel k' h) with
  | none =>
    rw [hlookup_append_none hl]
    have hh : hlookup k h = none := by rw [← hlookup_hdel_ne hne h]; exact hl
    simp [hlookup, Ne.symm hne, hh]
  | some w =>
    rw [hlookup_append_some hl, ← hlookup_hdel_ne hne h, hl]

theorem hlookup_etagAdj_ne {k : String} (hne : k ≠ "etag") (h : Headers) :
    hlookup k (etagAdj h) = hlookup k h := by
  unfold etagAdj
  cases he : hlookup "etag" h with
  | none => rfl
  | some v => exact hlookup_hset_ne hne _ h

theorem hlookup_etagAdj_some {h : Headers} {v : String} (he : hlookup "etag" h = some v) :
    hlookup "etag" (etagAdj h) = some (pyStripQuotes v) := by
  unfold etagAdj
  rw [he]
  exact hlookup_hset_self _ _ h

theorem scanMeta_to_sound :
    ∀ (m : List (String × String × String)) (s0 k0 : Option String) (v : String),
      (scanMeta m s0 k0).1 = some v →
      s0 = some v ∨ ∃ kvt ∈ m, pyLower kvt.1 = "x-container-sync-to" ∧ kvt.2.1 = v := by
  intro m
  induction m with
  | nil => intro s0 k0 v h; exact Or.inl h
  | cons a t ih =>
    intro s0 k0 v h
    obtain ⟨k, val, ts⟩ := a
    by_cases h1 : pyLower k = "x-container-sync-to"
    · simp only [scanMeta, h1, if_true] at h
      rcases ih _ _ _ h with hv | ⟨kvt, hmem, hp⟩
      · exact Or.inr ⟨(k, val, ts), List.mem_cons_self _ _, h1, Option.some.inj hv⟩
      · exact Or.inr ⟨kvt, List.mem_cons_of_mem _ hmem, hp⟩
    · by_cases h2 : pyLower k = "x-container-sync-key"
      · simp only [scanMeta, h1, h2, if_true, if_false] at h
        rcases ih _ _ _ h with hv | ⟨kvt, hmem, hp⟩
        · exact Or.inl hv
        · exact Or.inr ⟨kvt, List.mem_cons_of_mem _ hmem, hp⟩
      · simp only [scanMeta, h1, h2, if_false] at h
        rcases ih _ _ _ h with hv | ⟨kvt, hmem, hp⟩
        · exact Or.inl hv
        · exact Or.inr ⟨kvt, List.mem_cons_of_mem _ hmem, hp⟩

theorem scanMeta_key_sound :
    ∀ (m : List (String × String × String)) (s0 k0 : Option String) (v : String),
      (scanMeta m s0 k0).2 = some v →
      k0 = some v ∨ ∃ kvt ∈ m, pyLower kvt.1 = "x-container-sync-key" ∧ kvt.2.1 = v := by
  intro m
  induction m with
  | nil => intro s0 k0 v h; exact Or.inl h
  | cons a t ih =>
    intro s0 k0 v h
    obtain ⟨k, val, ts⟩ := a
    by_cases h1 : pyLower k = "x-container-sync-to"
    · simp only [scanMeta, h1, if_true] at h
      rcases ih _ _ _ h with hv | ⟨kvt, hmem, hp⟩
      · exact Or.inl hv
      · exact Or.inr ⟨kvt, List.mem_cons_of_mem _ hmem, hp⟩
    · by_cases h2 : pyLower k = "x-container-sync-key"
      · simp only [scanMeta, h1, h2, if_true, if_false] at h
        rcases ih _ _ _ h with hv | ⟨kvt, hmem, hp⟩
        · exact Or.inr ⟨(k, val, ts), List.mem_cons_self _ _, h2, Option.some.inj hv⟩
        · exact Or.inr ⟨kvt, List.mem_cons_of_mem _ hmem, hp⟩
      · simp only [scanMeta, h1, h2, if_false] at h
        rcases ih _ _ _ h with hv | ⟨kvt, hmem, hp⟩
        · exact Or.inl hv
        · exact Or.inr ⟨kvt, List.mem_cons_of_mem _ hmem, hp⟩

theorem scanMeta_to_falsy (m : List (String × String × String))
    (hm : ∀ kvt ∈ m, pyLower kvt.1 = "x-container-sync-to" → kvt.2.1 = "") :
    truthy (scanMeta m none none).1 = false := by
  cases hv : (scanMeta m none none).1 with
  | none => rfl
  | some v =>
    rcases scanMeta_to_sound m none none v hv with h | ⟨kvt, hmem, hk, hval⟩
    · exact Option.noConfusion h
    · have hv0 : v = "" := hval ▸ hm kvt hmem hk
      subst hv0
      simp [truthy]

theorem scanMeta_key_falsy (m : List (String × String × String))
    (hm : ∀ kvt ∈ m, pyLower kvt.1 = "x-container-sync-key" → kvt.2.1 = "") :
    truthy (scanMeta m none none).2 = false := by
  cases hv : (scanMeta m none none).2 with
  | none => rfl
  | some v =>
    rcases scanMeta_key_sound m none none v hv with h | ⟨kvt, hmem, hk, hval⟩
    · exact Option.noConfusion h
    · have hv0 : v = "" := hval ▸ hm kvt hmem hk
      subst hv0
      simp [truthy]

theorem length_filter_mono {α : Type} (p q : α → Bool) (h : ∀ a, p a = true → q a = true) :
    ∀ l : List α, (l.filter p).length ≤ (l.filter q).length := by
  intro l
  induction l with
  | nil => simp
  | cons a t ih =>
    cases hp : p a with
    | true =>
      rw [List.filter_cons_of_pos hp, List.filter_cons_of_pos (h a hp)]
      exact Nat.succ_le_succ ih
    | false =>
      rw [List.filter_cons_of_neg (by simp [hp])]
      cases hq : q a with
      | true =>
        rw [List.filter_cons_of_pos hq]
        exact Nat.le_trans ih (Nat.le_succ _)
      | false =>
        rw [List.filter_cons_of_neg (by simp [hq])]
        exact ih

theorem length_filter_lt {α : Type} (p q : α → Bool) (himp : ∀ a, q a = true → p a = true)
    (row : α) :
    ∀ (l rest : List α), l.filter p = row :: rest → q row = false →
      (l.filter q).length < (l.filter p).length := by
  intro l
  induction l with
  | nil => intro rest hf _; simp at hf
  | cons a t ih =>
    intro rest hf hq
    cases hp : p a with
    | true =>
      rw [List.filter_cons_of_pos hp] at hf
      have ha : a = row := (List.cons.injEq _ _ _ _ ▸ hf).1
      have hqa : q a = false := ha ▸ hq
      rw [List.filter_cons_of_pos hp, List.filter_cons_of_neg (by simp [hqa]),
        List.length_cons]
      exact Nat.lt_succ_of_le (length_filter_mono q p himp t)
    | false =>
      have hqa : q a = false := by
        cases hqa : q a with
        | true => exact absurd (himp a hqa) (by simp [hp])
        | false => rfl
      rw [List.filter_cons_of_neg (by simp [hp])] at hf
      rw [show List.filter p (a :: t) = List.filter p t from
        List.filter_cons_of_neg (by simp [hp])]
      rw [show List.filter q (a :: t) = List.filter q t from
        List.filter_cons_of_neg (by simp [hqa])]
      exact ih rest hf hq

theorem get_items_since_one {log : List Row} {c : Int} {row : Row} {tl : List Row}
    (h : get_items_since log c 1 = row :: tl) :
    ∃ rest, log.filter (fun r => c < r.rowid) = row :: rest ∧ c < row.rowid := by
  unfold get_items_since at h
  cases hF : log.filter (fun r => c < r.rowid) with
  | nil => rw [hF] at h; simp at h
  | cons a t =>
    rw [hF] at h
    simp only [List.take_succ_cons, List.take_zero] at h
    have ha : a = row := (List.cons.injEq _ _ _ _ ▸ h).1
    subst ha
    refine ⟨t, rfl, ?_⟩
    have hmem : a ∈ log.filter (fun r => c < r.rowid) := by
      rw [hF]; exact List.mem_cons_self _ _
    have := List.of_mem_filter hmem
    simpa using this

theorem container_sync_row_stats (env : SyncEnv) (row : Row) (sync_key : String)
    (st : Stats) :
    (container_sync_row env row sync_key st).2.1.container_syncs = st.container_syncs ∧
    (container_sync_row env row sync_key st).2.1.container_skips = st.container_skips := by
  unfold container_sync_row
  split
  · split
    · exact ⟨rfl, rfl⟩
    · split
      · exact ⟨rfl, rfl⟩
      · exact ⟨rfl, rfl⟩
  · split
    · exact ⟨rfl, rfl⟩
    · split
      · exact ⟨rfl, rfl⟩
      · exact ⟨rfl, rfl⟩

theorem syncLoop_inv (env : SyncEnv) (sync_key : String) (stop_at : Int) :
    ∀ (fuel k : Nat) (sync_row : Int) (st : Stats) (ws : List Int)
      (cs : List RemoteCall) (ats : List (Row × Bool)),
      ∃ ds ncs,
        (syncLoop env sync_key stop_at fuel k sync_row st ws cs ats).attempts =
          ats ++ ds ∧
        (syncLoop env sync_key stop_at fuel k sync_row st ws cs ats).cursorWrites =
          ws ++ (ds.filter (fun a => a.2)).map (fun a => a.1.rowid) ∧
        (syncLoop env sync_key stop_at fuel k sync_row st ws cs ats).calls = cs ++ ncs ∧
        List.Chain (fun x y => x < y) sync_row (ds.map (fun a => a.1.rowid)) ∧
        List.Chain (fun x y => x ≤ y) sync_row
          ((ds.filter (fun a => a.2)).map (fun a => a.1.rowid)) ∧
        (∀ a ∈ ds.dropLast, a.2 = true) ∧
        (syncLoop env sync_key stop_at fuel k sync_row st ws cs ats).stats.container_syncs =
          st.container_syncs +
            (if (syncLoop env sync_key stop_at fuel k sync_row st ws cs ats).exit =
                  ExitKind.caughtUp ∨
                (syncLoop env sync_key stop_at fuel k sync_row st ws cs ats).exit =
                  ExitKind.deadline
             then 1 else 0) := by
  intro fuel
  induction fuel with
  | zero =>
    intro k sync_row st ws cs ats
    exact ⟨[], [], by simp [syncLoop], by simp [syncLoop], by simp [syncLoop],
      List.Chain.nil, List.Chain.nil, by simp, by simp [syncLoop]⟩
  | succ fuel ih =>
    intro k sync_row st ws cs ats
    by_cases ht : env.time k < stop_at
    · cases hrows : get_items_since env.log sync_row 1 with
      | nil =>
        exact ⟨[], [], by simp [syncLoop, ht, hrows], by simp [syncLoop, ht, hrows],
          by simp [syncLoop, ht, hrows], List.Chain.nil, List.Chain.nil, by simp,
          by simp [syncLoop, ht, hrows]⟩
      | cons row tl =>
        obtain ⟨rest, hF, hlt⟩ := get_items_since_one hrows
        rcases hcall : container_sync_row env row sync_key st with ⟨b, st', cs'⟩
        have hpres := container_sync_row_stats env row sync_key st
        rw [hcall] at hpres
        simp only [] at hpres
        cases b with
        | false =>
          refine ⟨[(row, false)], cs', ?_, ?_, ?_, ?_, ?_, ?_, ?_⟩
          · simp [syncLoop, ht, hrows, hcall]
          · simp [syncLoop, ht, hrows, hcall]
          · simp [syncLoop, ht, hrows, hcall]
          · simp only [List.map_cons, List.map_nil]
            exact List.Chain.cons hlt List.Chain.nil
          · simp
          · simp
          · simp [syncLoop, ht, hrows, hcall, hpres.1]
        | true =>
          obtain ⟨ds', ncs', h1, h2, h3, h4, h5, h6, h7⟩ :=
            ih (k + 1) row.rowid st' (ws ++ [row.rowid]) (cs ++ cs')
              (ats ++ [(row, true)])
          refine ⟨(row, true) :: ds', cs' ++ ncs', ?_, ?_, ?_, ?_, ?_, ?_, ?_⟩
          · simp only [syncLoop, ht, if_true, hrows, hcall]
            rw [h1]
            simp
          · simp only [syncLoop, ht, if_true, hrows, hcall]
            rw [h2]
            simp
          · simp only [syncLoop, ht, if_true, hrows, hcall]
            rw [h3]
            simp
          · simp only [List.map_cons]
            exact List.Chain.cons hlt h4
          · simp only [List.filter_cons_of_pos (by rfl : ((row, true) : Row × Bool).2 = true),
              List.map_cons]
            exact List.Chain.cons (le_of_lt hlt) h5
          · intro a ha
            cases ds' with
            | nil => simp at ha
            | cons d t2 =>
              rw [List.dropLast_cons₂] at ha
              rcases List.mem_cons.mp ha with h | h
              · rw [h]
              · exact h6 a h
          · simp only [syncLoop, ht, if_true, hrows, hcall]
            rw [h7, hpres.1]
    · exact ⟨[], [], by simp [syncLoop, ht], by simp [syncLoop, ht],
        by simp [syncLoop, ht], List.Chain.nil, List.Chain.nil, by simp,
        by simp [syncLoop, ht]⟩

theorem syncLoop_no_fuelOut (env : SyncEnv) (sync_key : String) (stop_at : Int) :
    ∀ (fuel k : Nat) (sync_row : Int) (st : Stats) (ws : List Int)
      (cs : List RemoteCall) (ats : List (Row × Bool)),
      (env.log.filter (fun r => sync_row < r.rowid)).length < fuel →
      (syncLoop env sync_key stop_at fuel k sync_row st ws cs ats).exit ≠
        ExitKind.fuelOut := by
  intro fuel
  induction fuel with
  | zero =>
    intro k sync_row st ws cs ats h
    exact absurd h (Nat.not_lt_zero _)
  | succ fuel ih =>
    intro k sync_row st ws cs ats hlen
    by_cases ht : env.time k < stop_at
    · cases hrows : get_items_since env.log sync_row 1 with
      | nil => simp [syncLoop, ht, hrows]
      | cons row tl =>
        obtain ⟨rest, hF, hlt⟩ := get_items_since_one hrows
        rcases hcall : container_sync_row env row sync_key st with ⟨b, st', cs'⟩
        cases b with
        | false => simp [syncLoop, ht, hrows, hcall]
        | true =>
          have hdec : (env.log.filter (fun r => row.rowid < r.rowid)).length <
              (env.log.filter (fun r => sync_row < r.rowid)).length := by
            refine length_filter_lt _ _ ?_ row env.log rest hF ?_
            · intro a ha
              simp only [decide_eq_true_eq] at ha ⊢
              exact lt_trans hlt ha
            · simp
          have hrec := ih (k + 1) row.rowid st' (ws ++ [row.rowid]) (cs ++ cs')
            (ats ++ [(row, true)]) (by omega)
          simpa [syncLoop, ht, hrows, hcall] using hrec
    · simp [syncLoop, ht]

theorem chain_imp_chain' {R : Int → Int → Prop} {c : Int} {l : List Int}
    (h : List.Chain R c l) : List.Chain' R l := by
  cases l with
  | nil => exact trivial
  | cons b t => exact (List.chain_cons.mp h).2

/-- C1: within one `container_sync` pass, the persisted cursor
(`x_container_sync_row`) never decreases - the sequence of values written
through `set_x_container_sync_row` is a chain above the initial cursor -
and a value is written exactly for each row on which `container_sync_row`
returned success, namely that row's `ROWID`; hence after the pass the
persisted cursor is the `ROWID` of the last successful row, or the
initial cursor when no row succeeded. -/
theorem C1_cursor_monotone (env : SyncEnv) (st : Stats) (out : SyncOutcome)
    (info : BrokerInfo) (hout : container_sync env st = Except.ok out)
    (hinfo : env.getInfo = Except.ok info) :
    List.Chain (fun x y => x ≤ y) info.x_container_sync_row out.cursorWrites ∧
    out.cursorWrites = (out.attempts.filter (fun a => a.2)).map (fun a => a.1.rowid) ∧
    out.cursorWrites.getLastD info.x_container_sync_row =
      ((out.attempts.filter (fun a => a.2)).map (fun a => a.1.rowid)).getLastD
        info.x_container_sync_row := by
  unfold container_sync at hout
  split at hout
  · split at hout
    · exact absurd hout (by simp)
    · split at hout
      · cases hout
        exact ⟨List.Chain.nil, by simp, by simp⟩
      · split at hout
        · cases hout
          exact ⟨List.Chain.nil, by simp, by simp⟩
        · split at hout
          · cases hout
            exact ⟨List.Chain.nil, by simp, by simp⟩
          · split at hout
            · cases hout
              exact ⟨List.Chain.nil, by simp, by simp⟩
            · cases hout
              rename_i info' heqinfo hdeleted hcond xval heqval
              rw [hinfo] at heqinfo
              injection heqinfo with heq
              subst heq
              obtain ⟨ds, ncs, h1, h2, h3, h4, h5, h6, h7⟩ :=
                syncLoop_inv env ((scanMeta env.metadata none none).2.getD "")
                  (env.time 0 + env.container_time) (env.log.length + 1) 1
                  info.x_container_sync_row st [] [] []
              rw [h1, h2]
              exact ⟨by simpa using h5, by simp, by simp⟩
  · cases hout
    exact ⟨List.Chain.nil, by simp, by simp⟩

/-- C1 witness: on a container with cursor 0 and pending rows 1 and 2
which both replicate, the cursor writes are `[1, 2]`, a chain above 0,
and correspond exactly to the successful attempts. -/
theorem C1_witness :
    container_sync envC1 stZero = Except.ok outC1 ∧
    envC1.getInfo = Except.ok ⟨"AUTH_a", "c", 0⟩ ∧
    outC1.cursorWrites = [1, 2] ∧
    List.Chain (fun x y => x ≤ y) 0 outC1.cursorWrites ∧
    outC1.cursorWrites =
      (outC1.attempts.filter (fun a => a.2)).map (fun a => a.1.rowid) := by
  have h := C1_cursor_monotone envC1 stZero outC1 ⟨"AUTH_a", "c", 0⟩ rfl rfl
  exact ⟨rfl, rfl, by decide, h.1, h.2.1⟩

/-- C2 (amended): `container_syncs` is incremented exactly when the row
loop terminates other than through a row failure - both when the rows are
exhausted and when the per-container deadline passes (line 229 sits after
the `while`, so the deadline exit also increments it); a row failure
returns early without the increment, and no pre-loop exit touches it.
The fuel exit is unreachable. -/
theorem C2_syncs_increment (env : SyncEnv) (st : Stats) (out : SyncOutcome)
    (hout : container_sync env st = Except.ok out) :
    out.stats.container_syncs =
      st.container_syncs +
        (if out.exit = ExitKind.caughtUp ∨ out.exit = ExitKind.deadline then 1
         else 0) ∧
    out.exit ≠ ExitKind.fuelOut := by
  unfold container_sync at hout
  split at hout
  · split at hout
    · exact absurd hout (by simp)
    · split at hout
      · cases hout
        exact ⟨by simp, by simp⟩
      · split at hout
        · cases hout
          exact ⟨by simp, by simp⟩
        · split at hout
          · cases hout
            exact ⟨by simp, by simp⟩
          · split at hout
            · cases hout
              exact ⟨by simp, by simp⟩
            · cases hout
              rename_i info heqinfo hdeleted hcond xval heqval
              obtain ⟨ds, ncs, h1, h2, h3, h4, h5, h6, h7⟩ :=
                syncLoop_inv env ((scanMeta env.metadata none none).2.getD "")
                  (env.time 0 + env.container_time) (env.log.length + 1) 1
                  info.x_container_sync_row st [] [] []
              refine ⟨h7, ?_⟩
              exact syncLoop_no_fuelOut env _ _ _ _ _ _ _ _ _
                (Nat.lt_succ_of_le (List.length_filter_le _ _))
  · cases hout
    exact ⟨by simp, by simp⟩

/-- C2 counterexample: with a pending row but the clock already at the
deadline (`container_time = 0`), the row loop ends because the deadline
passed - rows are *not* exhausted and none was attempted - yet
`container_syncs` is still incremented, contradicting the claim that a
deadline exit does not increment `syncs`. -/
theorem C2_counterexample :
    container_sync envDead stZero = Except.ok outDead ∧
    outDead.exit = ExitKind.deadline ∧
    outDead.attempts = [] ∧
    get_items_since envDead.log 0 1 ≠ [] ∧
    envDead.getInfo = Except.ok ⟨"AUTH_a", "c", 0⟩ ∧
    outDead.stats.container_syncs = stZero.container_syncs + 1 := by
  exact ⟨rfl, rfl, rfl, by decide, rfl, rfl⟩

/-- C2 witness: on a fully caught-up container (no pending rows) the loop
exits because rows are exhausted and `container_syncs` goes from 0 to 1;
the fuel exit does not occur. -/
theorem C2_witness :
    container_sync envBase stZero = Except.ok outBase ∧
    outBase.exit = ExitKind.caughtUp ∧
    outBase.stats.container_syncs = stZero.container_syncs + 1 ∧
    outBase.exit ≠ ExitKind.fuelOut := by
  have h := C2_syncs_increment envBase stZero outBase rfl
  exact ⟨rfl, rfl, by rw [h.1]; rfl, h.2⟩

/-- C5: within one pass, rows are handed to `container_sync_row` in
strictly increasing `ROWID` order, and a failed row is always the last
attempt of the pass - every attempt with a successor succeeded (a failure
makes `container_sync` return at once, so no later row is attempted). -/
theorem C5_ordering (env : SyncEnv) (st : Stats) (out : SyncOutcome)
    (hout : container_sync env st = Except.ok out) :
    List.Chain' (fun x y => x < y) (out.attempts.map (fun a => a.1.rowid)) ∧
    ∀ a ∈ out.attempts.dropLast, a.2 = true := by
  unfold container_sync at hout
  split at hout
  · split at hout
    · exact absurd hout (by simp)
    · split at hout
      · cases hout
        exact ⟨by simp, by simp⟩
      · split at hout
        · cases hout
          exact ⟨by simp, by simp⟩
        · split at hout
          · cases hout
            exact ⟨by simp, by simp⟩
          · split at hout
            · cases hout
              exact ⟨by simp, by simp⟩
            · cases hout
              rename_i info heqinfo hdeleted hcond xval heqval
              obtain ⟨ds, ncs, h1, h2, h3, h4, h5, h6, h7⟩ :=
                syncLoop_inv env ((scanMeta env.metadata none none).2.getD "")
                  (env.time 0 + env.container_time) (env.log.length + 1) 1
                  info.x_container_sync_row st [] [] []
              rw [h1]
              refine ⟨?_, by simpa using h6⟩
              simp only [List.nil_append]
              exact chain_imp_chain' h4
  · cases hout
    exact ⟨by simp, by simp⟩

/-- C5 witness: pending rows 5, 6, 7 where row 6's PUT fails: the attempts
are exactly rows 5 (success) then 6 (failure), row 7 is never attempted,
and the persisted cursor stays at 5. -/
theorem C5_witness :
    container_sync envC5 stZero = Except.ok outC5 ∧
    outC5.attempts.map (fun a => a.1.rowid) = [5, 6] ∧
    outC5.attempts.map (fun a => a.2) = [true, false] ∧
    outC5.cursorWrites = [5] ∧
    List.Chain' (fun x y => x < y) (outC5.attempts.map (fun a => a.1.rowid)) ∧
    ∀ a ∈ outC5.attempts.dropLast, a.2 = true := by
  have h := C5_ordering envC5 stZero outC5 rfl
  exact ⟨rfl, by decide, by decide, by decide, h.1, h.2⟩

/-- C3 (code bug): `container_sync` is meant never to raise to its caller,
but when `ContainerBroker(path)` itself raises, the line-230 handler runs
with the local `broker` still unbound: `container_failures` is bumped
(line 231), and then evaluating `broker.db_file` in the log call of line
232 raises `NameError`, which escapes `container_sync`. -/
theorem C3_broker_open_raises :
    container_sync envBroken stZero =
      Except.error (PyExc.nameError, ⟨0, 0, 0, 0, 1⟩) := rfl

/-- C4 (code bug): `_Iter2FileLikeObject.read` with a non-negative size
pulls a fresh chunk from the iterator and never consumes the leftover
buffered in `self._chunk` by an earlier short read: on source chunks
`["ab"]`, `read(1)` returns `"a"` (buffering `"b"`), the next `read(1)`
returns `""` - end of stream - and the byte `"b"` is lost, so the
concatenation of a read-until-EOF sequence is `"a"`, not `"ab"`. -/
theorem C4_read_loses_bytes :
    (Iter2File.read ⟨["ab"], ""⟩ 1).1 = "a" ∧
    (Iter2File.read ⟨["ab"], ""⟩ 1).2 = ⟨[], "b"⟩ ∧
    (Iter2File.read ⟨[], "b"⟩ 1).1 = "" ∧
    (Iter2File.read ⟨[], "b"⟩ 1).2 = ⟨[], "b"⟩ ∧
    (Iter2File.read ⟨["ab"], ""⟩ 1).1 ++ (Iter2File.read ⟨[], "b"⟩ 1).1 ≠ "ab" := by
  exact ⟨rfl, rfl, rfl, rfl, by decide⟩

/-- C6: for a deleted row, a DELETE failing with HTTP status 404 is
treated as success - `container_deletes` is incremented and `True`
returned, the very result of a successful DELETE - while any non-404
DELETE failure falls to the shared failure handling: `container_failures`
is incremented and `False` returned. -/
theorem C6_delete_404 (env : SyncEnv) (row : Row) (sync_key : String) (st : Stats)
    (hdel : row.deleted = true) :
    (env.deleteResult row.name = Except.error (PyExc.client 404) →
      container_sync_row env row sync_key st =
        (true, {st with container_deletes := st.container_deletes + 1},
         [RemoteCall.del row.name
           [("X-Timestamp", row.created_at), ("X-Container-Sync-Key", sync_key)]])) ∧
    (env.deleteResult row.name = Except.ok () →
      container_sync_row env row sync_key st =
        (true, {st with container_deletes := st.container_deletes + 1},
         [RemoteCall.del row.name
           [("X-Timestamp", row.created_at), ("X-Container-Sync-Key", sync_key)]])) ∧
    (∀ e, env.deleteResult row.name = Except.error e → e ≠ PyExc.client 404 →
      container_sync_row env row sync_key st =
        (false, {st with container_failures := st.container_failures + 1},
         [RemoteCall.del row.name
           [("X-Timestamp", row.created_at), ("X-Container-Sync-Key", sync_key)]])) := by
  refine ⟨?_, ?_, ?_⟩
  · intro h
    unfold container_sync_row
    simp [hdel, h]
  · intro h
    unfold container_sync_row
    simp [hdel, h]
  · intro e h hne
    unfold container_sync_row
    simp [hdel, h, hne]

/-- C6 witness: a DELETE row whose remote DELETE returns 404 yields
success, `container_deletes` 1, with the DELETE call carrying the row's
timestamp and the sync key. -/
theorem C6_witness :
    rowDel.deleted = true ∧
    envDel404.deleteResult rowDel.name = Except.error (PyExc.client 404) ∧
    container_sync_row envDel404 rowDel "secret" stZero =
      (true, ⟨0, 1, 0, 0, 0⟩,
       [RemoteCall.del "a.txt"
         [("X-Timestamp", "1400000001.00000"), ("X-Container-Sync-Key", "secret")]]) := by
  exact ⟨rfl, rfl, (C6_delete_404 envDel404 rowDel "secret" stZero rfl).1 rfl⟩

/-- C7: for a non-deleted row whose first replica GET succeeds, the PUT is
issued with the sanitized headers: no `date`, no `last-modified`, the
`etag` (when fetched) with surrounding double quotes stripped,
`X-Timestamp` equal to the row's `created_at`, and `X-Container-Sync-Key`
equal to the sync key. -/
theorem C7_put_headers (env : SyncEnv) (row : Row) (sync_key : String) (st : Stats)
    (n : Nat) (rest : List Nat) (hdrs : Headers) (body : List String)
    (hdel : row.deleted = false)
    (hsh : env.shuffle row.name (env.getNodes row.name).2 = n :: rest)
    (hget : env.getResult row.name n = Except.ok (hdrs, body)) :
    (container_sync_row env row sync_key st).2.2 =
      [RemoteCall.get n,
       RemoteCall.put row.name (sanitizeHeaders hdrs row.created_at sync_key) body] ∧
    hlookup "date" (sanitizeHeaders hdrs row.created_at sync_key) = none ∧
    hlookup "last-modified" (sanitizeHeaders hdrs row.created_at sync_key) = none ∧
    (∀ v, hlookup "etag" hdrs = some v →
      hlookup "etag" (sanitizeHeaders hdrs row.created_at sync_key) =
        some (pyStripQuotes v)) ∧
    hlookup "X-Timestamp" (sanitizeHeaders hdrs row.created_at sync_key) =
      some row.created_at ∧
    hlookup "X-Container-Sync-Key" (sanitizeHeaders hdrs row.created_at sync_key) =
      some sync_key := by
  refine ⟨?_, ?_, ?_, ?_, ?_, ?_⟩
  · unfold container_sync_row fanout fanoutGo
    rw [hsh]
    simp only [hdel, Bool.false_eq_true, if_false, hget]
    cases hput : env.putResult row.name (sanitizeHeaders hdrs row.created_at sync_key) with
    | ok u => simp [hput]
    | error e => simp [hput]
  · unfold sanitizeHeaders
    rw [hlookup_hset_ne (by decide : ("date" : String) ≠ "X-Container-Sync-Key"),
      hlookup_hset_ne (by decide : ("date" : String) ≠ "X-Timestamp"),
      hlookup_etagAdj_ne (by decide : ("date" : String) ≠ "etag"),
      hlookup_hdel_ne (by decide : ("date" : String) ≠ "last-modified"),
      hlookup_hdel_self]
  · unfold sanitizeHeaders
    rw [hlookup_hset_ne (by decide : ("last-modified" : String) ≠ "X-Container-Sync-Key"),
      hlookup_hset_ne (by decide : ("last-modified" : String) ≠ "X-Timestamp"),
      hlookup_etagAdj_ne (by decide : ("last-modified" : String) ≠ "etag"),
      hlookup_hdel_self]
  · intro v hv
    unfold sanitizeHeaders
    rw [hlookup_hset_ne (by decide : ("etag" : String) ≠ "X-Container-Sync-Key"),
      hlookup_hset_ne (by decide : ("etag" : String) ≠ "X-Timestamp")]
    refine hlookup_etagAdj_some ?_
    rw [hlookup_hdel_ne (by decide : ("etag" : String) ≠ "last-modified"),
      hlookup_hdel_ne (by decide : ("etag" : String) ≠ "date")]
    exact hv
  · unfold sanitizeHeaders
    rw [hlookup_hset_ne (by decide : ("X-Timestamp" : String) ≠ "X-Container-Sync-Key"),
      hlookup_hset_self]
  · unfold sanitizeHeaders
    rw [hlookup_hset_self]

/-- C7 witness: fetched headers with `date`, `last-modified` and a quoted
etag produce a PUT whose headers are exactly
`etag=abc, X-Timestamp=created_at, X-Container-Sync-Key=secret`. -/
theorem C7_witness :
    rowPut.deleted = false ∧
    envBase.getResult rowPut.name 0 =
      Except.ok ([("etag", "\"abc\""), ("date", "D"), ("last-modified", "L")],
        ["hello"]) ∧
    (container_sync_row envBase rowPut "secret" stZero).2.2 =
      [RemoteCall.get 0,
       RemoteCall.put "a.txt"
         [("etag", "abc"), ("X-Timestamp", "1400000000.00000"),
          ("X-Container-Sync-Key", "secret")] ["hello"]] ∧
    hlookup "date"
      (sanitizeHeaders [("etag", "\"abc\""), ("date", "D"), ("last-modified", "L")]
        rowPut.created_at "secret") = none ∧
    hlookup "etag"
      (sanitizeHeaders [("etag", "\"abc\""), ("date", "D"), ("last-modified", "L")]
        rowPut.created_at "secret") = some "abc" := by
  have h := C7_put_headers envBase rowPut "secret" stZero 0 []
    [("etag", "\"abc\""), ("date", "D"), ("last-modified", "L")] ["hello"]
    rfl rfl rfl
  refine ⟨rfl, rfl, ?_, h.2.1, ?_⟩
  · rw [h.1]
    rfl
  · rw [h.2.2.2.1 "\"abc\"" rfl]
    rfl

/-- C8: when the container's metadata lacks a non-empty
`x-container-sync-to` or lacks a non-empty `x-container-sync-key`
(case-insensitively), `container_sync` returns after bumping
`container_skips` by exactly one: no remote call, no cursor write, no
other counter changed. -/
theorem C8_skip (env : SyncEnv) (st : Stats) (info : BrokerInfo)
    (hdb : pyEndsWith env.path ".db" = true)
    (hopen : env.openBroker = Except.ok ())
    (hinfo : env.getInfo = Except.ok info)
    (hdel : env.isDeleted = false)
    (hmeta :
      (∀ kvt ∈ env.metadata, pyLower kvt.1 = "x-container-sync-to" → kvt.2.1 = "") ∨
      (∀ kvt ∈ env.metadata, pyLower kvt.1 = "x-container-sync-key" → kvt.2.1 = "")) :
    container_sync env st =
      Except.ok ⟨{st with container_skips := st.container_skips + 1}, [], [], [],
        ExitKind.skip⟩ := by
  have hcond : (!(truthy (scanMeta env.metadata none none).1) ||
      !(truthy (scanMeta env.metadata none none).2)) = true := by
    rcases hmeta with hm | hm
    · rw [scanMeta_to_falsy env.metadata hm]
      rfl
    · rw [scanMeta_key_falsy env.metadata hm]
      simp
  unfold container_sync
  rw [hopen, hinfo, hdel]
  simp [hdb, hcond]

/-- C8 witness: a container whose metadata has a sync-to entry but no
sync-key entry is skipped: `container_skips` becomes 1, all other
counters stay 0, and neither a remote call nor a cursor write happens. -/
theorem C8_witness :
    container_sync envC8 stZero =
      Except.ok ⟨⟨0, 0, 0, 1, 0⟩, [], [], [], ExitKind.skip⟩ := by
  exact C8_skip envC8 stZero ⟨"AUTH_a", "c", 0⟩ rfl rfl rfl rfl
    (Or.inr (by decide))

/-- C9: when `validate_sync_to` rejects the slash-stripped sync target,
`container_sync` returns after bumping `container_failures` by exactly
one: no remote call, no cursor write, no other counter changed. -/
theorem C9_validation_failure (env : SyncEnv) (st : Stats) (info : BrokerInfo)
    (u k err : String)
    (hdb : pyEndsWith env.path ".db" = true)
    (hopen : env.openBroker = Except.ok ())
    (hinfo : env.getInfo = Except.ok info)
    (hdel : env.isDeleted = false)
    (hscan : scanMeta env.metadata none none = (some u, some k))
    (hu : u ≠ "") (hk : k ≠ "")
    (hval : env.validate (pyRstripSlashes u) = some err) :
    container_sync env st =
      Except.ok ⟨{st with container_failures := st.container_failures + 1},
        [], [], [], ExitKind.invalid⟩ := by
  unfold container_sync
  rw [hopen, hinfo, hdel, hscan]
  simp [hdb, truthy, hu, hk, hval]

/-- C9 witness: a valid-looking sync configuration whose target the host
validator rejects: `container_failures` becomes 1, everything else
untouched, no remote call, no cursor write. -/
theorem C9_witness :
    container_sync envC9 stZero =
      Except.ok ⟨⟨0, 0, 0, 0, 1⟩, [], [], [], ExitKind.invalid⟩ := by
  exact C9_validation_failure envC9 stZero ⟨"AUTH_a", "c", 0⟩
    "http://127.0.0.1/v1/AUTH_x/dest/" "secret" "invalid host"
    rfl rfl rfl rfl rfl (by decide) (by decide) rfl

/-- C10: for a non-deleted row with an empty ring node list, the fan-out
loop never runs; the fallback "Unknown exception" path evaluates the
unbound loop variable `node`, raising a `NameError` that the generic
`except Exception` handler catches, so `container_sync_row` still returns
`False` with `container_failures` bumped exactly once (and no remote call
was made). -/
theorem C10_empty_ring (env : SyncEnv) (row : Row) (sync_key : String) (st : Stats)
    (hdel : row.deleted = false)
    (hring : (env.getNodes row.name).2 = [])
    (hsh : env.shuffle row.name [] = []) :
    container_sync_row env row sync_key st =
      (false, {st with container_failures := st.container_failures + 1}, []) := by
  unfold container_sync_row
  rw [hring, hsh]
  simp [hdel, fanout]

/-- C10 witness: concrete empty ring answer for `a.txt`: the result is
`False` with `container_failures` 1 and no remote calls. -/
theorem C10_witness :
    (envC10.getNodes rowPut.name).2 = [] ∧
    container_sync_row envC10 rowPut "secret" stZero =
      (false, ⟨0, 0, 0, 0, 1⟩, []) := by
  exact ⟨rfl, C10_empty_ring envC10 rowPut "secret" stZero rfl rfl rfl⟩
